import Mathlib

/-!
Shallow embedding of the Telegram-Bale bridge bot (src/app.py).

The durable state is a SQLite database with six tables (users, chats,
group_links, channel_links, verify_tokens, dm_verify_tokens); it is modelled
as a structure of lists of rows.  Timestamps are natural numbers counting
seconds (the source stores ISO datetime strings and compares them as
instants; ten minutes is 600 seconds).  SQL statements are translated
one-by-one: SELECT ... fetchone becomes List.find?, UPDATE becomes List.map,
DELETE becomes List.filter, INSERT becomes list append.  The unique indexes
declared in INIT_SQL (users.tg_user_id, users.bale_user_id, the chats
(platform, chat_id) pair, and the PRIMARY KEY on token codes) are modelled by
an explicit duplicate check before each INSERT / UPDATE that could violate
them: a violating statement raises sqlite3.IntegrityError in the source, so
the embedded operation returns none (the enclosing transaction is rolled
back).  Note PRAGMA foreign_keys is never enabled in the source, so foreign
key clauses are not enforced and are not modelled.
-/

inductive Platform where
  | tg
  | bale
deriving DecidableEq, Repr

inductive CKind where
  | group
  | channel
deriving DecidableEq, Repr

/-- Row of the users table (id, tg_user_id, bale_user_id,
dm_target_bale_chat_id, dm_target_telegram_chat_id, created_at). -/
structure UserRow where
  id : Int
  tg_user_id : Option Int
  bale_user_id : Option Int
  dm_target_bale_chat_id : Option Int
  dm_target_telegram_chat_id : Option Int
  created_at : Nat
deriving DecidableEq, Repr

/-- Row of the chats table. -/
structure ChatRow where
  id : Int
  owner_user_id : Int
  platform : Platform
  chat_type : CKind
  chat_id : Int
  title : String
  created_at : Nat
deriving DecidableEq, Repr

/-- Row of the group_links table (and, reused, of channel_links): the two
platform-native chat ids plus the enabled flag. -/
structure LinkRow where
  id : Int
  owner_user_id : Int
  tg_chat_id : Int
  bale_chat_id : Int
  enabled : Bool
  created_at : Nat
deriving DecidableEq, Repr

/-- Row of the verify_tokens table. -/
structure TokenRow where
  code : String
  owner_user_id : Int
  platform : Platform
  chat_type : CKind
  platform_user_id : Int
  expires_at : Nat
  consumed : Bool
deriving DecidableEq, Repr

/-- Row of the dm_verify_tokens table. -/
structure DmTokenRow where
  code : String
  owner_user_id : Int
  target_platform : Platform
  target_chat_id : Int
  expires_at : Nat
  consumed : Bool
deriving DecidableEq, Repr

/-- The whole database. -/
structure Store where
  users : List UserRow
  chats : List ChatRow
  group_links : List LinkRow
  channel_links : List LinkRow
  verify_tokens : List TokenRow
  dm_verify_tokens : List DmTokenRow
deriving DecidableEq, Repr

/-- AUTOINCREMENT id supply for the users table: one more than the largest id
present (SQLite guarantees a fresh id strictly larger than existing ones). -/
def nextUserId (s : Store) : Int :=
  1 + s.users.foldr (fun u m => max u.id m) 0

/-- AUTOINCREMENT id supply for the chats table. -/
def nextChatId (s : Store) : Int :=
  1 + s.chats.foldr (fun c m => max c.id m) 0

-- ------------------------------------------------------------------
-- User management (get_or_create_user_by_tg / get_or_create_user_by_bale)
-- ------------------------------------------------------------------

/-- get_or_create_user_by_tg: SELECT id FROM users WHERE tg_user_id=?, and on
miss INSERT a row carrying only the Telegram identity, then re-select.  The
source recurses after the INSERT; since the freshly inserted row is the only
row matching the identity, this returns the fresh id. -/
def get_or_create_user_by_tg (s : Store) (tg_user_id : Int) (now : Nat) :
    Int × Store :=
  match s.users.find? (fun u => decide (u.tg_user_id = some tg_user_id)) with
  | some u => (u.id, s)
  | none =>
    let nid := nextUserId s
    (nid, { s with users :=
      s.users ++ [⟨nid, some tg_user_id, none, none, none, now⟩] })

/-- get_or_create_user_by_bale, symmetric to the Telegram variant. -/
def get_or_create_user_by_bale (s : Store) (bale_user_id : Int) (now : Nat) :
    Int × Store :=
  match s.users.find? (fun u => decide (u.bale_user_id = some bale_user_id)) with
  | some u => (u.id, s)
  | none =>
    let nid := nextUserId s
    (nid, { s with users :=
      s.users ++ [⟨nid, none, some bale_user_id, none, none, now⟩] })

-- ------------------------------------------------------------------
-- Verify code management
-- ------------------------------------------------------------------

/-- create_verify_code: INSERT INTO verify_tokens with expiry now + 600
seconds and consumed = 0.  The random code is passed in by the caller (the
source draws it from gen_code); code is the PRIMARY KEY, so inserting a
duplicate raises, modelled by returning none. -/
def create_verify_code (s : Store) (now : Nat) (owner_user_id : Int)
    (platform : Platform) (chat_type : CKind) (platform_user_id : Int)
    (code : String) : Option Store :=
  if s.verify_tokens.any (fun t => decide (t.code = code)) then none
  else some { s with verify_tokens := s.verify_tokens ++
    [⟨code, owner_user_id, platform, chat_type, platform_user_id,
      now + 600, false⟩] }

/-- consume_verify_code: SELECT the token matching code AND platform AND
platform_user_id; reject if absent, consumed, or past expiry (the source
compares fromisoformat(expires_at) < now, a strict comparison); otherwise
UPDATE verify_tokens SET consumed=1 WHERE code=? and return
(owner_user_id, chat_type).  Returns the result together with the
post-transaction store. -/
def consume_verify_code (s : Store) (now : Nat) (code : String)
    (platform : Platform) (platform_user_id : Int) :
    Option (Int × CKind) × Store :=
  match s.verify_tokens.find? (fun t =>
      decide (t.code = code ∧ t.platform = platform ∧
        t.platform_user_id = platform_user_id)) with
  | none => (none, s)
  | some t =>
    if t.consumed then (none, s)
    else if t.expires_at < now then (none, s)
    else
      (some (t.owner_user_id, t.chat_type),
       { s with verify_tokens := s.verify_tokens.map (fun u =>
           if u.code = code then { u with consumed := true } else u) })

/-- create_dm_verify_code: INSERT INTO dm_verify_tokens with expiry
now + 600; the random DM- code is passed in by the caller. -/
def create_dm_verify_code (s : Store) (now : Nat) (owner_user_id : Int)
    (target_platform : Platform) (target_chat_id : Int) (code : String) :
    Option Store :=
  if s.dm_verify_tokens.any (fun t => decide (t.code = code)) then none
  else some { s with dm_verify_tokens := s.dm_verify_tokens ++
    [⟨code, owner_user_id, target_platform, target_chat_id,
      now + 600, false⟩] }

/-- consume_dm_verify_code: SELECT by code only, then reject if consumed, or
the target platform differs, or the target chat id differs, or past expiry;
otherwise flip consumed and return owner_user_id. -/
def consume_dm_verify_code (s : Store) (now : Nat) (code : String)
    (platform : Platform) (chat_id : Int) : Option Int × Store :=
  match s.dm_verify_tokens.find? (fun t => decide (t.code = code)) with
  | none => (none, s)
  | some t =>
    if t.consumed ∨ t.target_platform ≠ platform ∨ t.target_chat_id ≠ chat_id then
      (none, s)
    else if t.expires_at < now then (none, s)
    else
      (some t.owner_user_id,
       { s with dm_verify_tokens := s.dm_verify_tokens.map (fun u =>
           if u.code = code then { u with consumed := true } else u) })

-- ------------------------------------------------------------------
-- Chat registry and pairing lookups
-- ------------------------------------------------------------------

/-- register_chat: INSERT OR IGNORE INTO chats.  The chats table has
UNIQUE(platform, chat_id); with OR IGNORE a conflicting insert is silently
skipped (no exception, no update), so the operation is total. -/
def register_chat (s : Store) (now : Nat) (owner_user_id : Int)
    (platform : Platform) (chat_type : CKind) (chat_id : Int)
    (title : String) : Store :=
  if s.chats.any (fun c => decide (c.platform = platform ∧ c.chat_id = chat_id)) then
    s
  else
    { s with chats := s.chats ++
      [⟨nextChatId s, owner_user_id, platform, chat_type, chat_id, title, now⟩] }

/-- find_group_link_by_tg: counterpart Bale group id and enabled flag. -/
def find_group_link_by_tg (s : Store) (tg_group_id : Int) :
    Option (Int × Bool) :=
  (s.group_links.find? (fun l => decide (l.tg_chat_id = tg_group_id))).map
    (fun l => (l.bale_chat_id, l.enabled))

/-- find_group_link_by_bale: counterpart TG group id and enabled flag. -/
def find_group_link_by_bale (s : Store) (bale_group_id : Int) :
    Option (Int × Bool) :=
  (s.group_links.find? (fun l => decide (l.bale_chat_id = bale_group_id))).map
    (fun l => (l.tg_chat_id, l.enabled))

/-- find_channel_link_by_tg: counterpart Bale channel id and enabled flag. -/
def find_channel_link_by_tg (s : Store) (tg_channel_id : Int) :
    Option (Int × Bool) :=
  (s.channel_links.find? (fun l => decide (l.tg_chat_id = tg_channel_id))).map
    (fun l => (l.bale_chat_id, l.enabled))

/-- find_channel_link_by_bale: counterpart TG channel id and enabled flag. -/
def find_channel_link_by_bale (s : Store) (bale_channel_id : Int) :
    Option (Int × Bool) :=
  (s.channel_links.find? (fun l => decide (l.bale_chat_id = bale_channel_id))).map
    (fun l => (l.tg_chat_id, l.enabled))

-- ------------------------------------------------------------------
-- Account merge (merge_user_accounts)
-- ------------------------------------------------------------------

/-- SELECT id FROM users WHERE tg_user_id=? (fetchone). -/
def findTgOwner (s : Store) (tg_user_id : Int) : Option Int :=
  (s.users.find? (fun u => decide (u.tg_user_id = some tg_user_id))).map
    (fun u => u.id)

/-- SELECT id FROM users WHERE bale_user_id=? (fetchone). -/
def findBaleOwner (s : Store) (bale_user_id : Int) : Option Int :=
  (s.users.find? (fun u => decide (u.bale_user_id = some bale_user_id))).map
    (fun u => u.id)

/-- Python truthiness of the fetched owner id: None and 0 are falsy. -/
def truthyId : Option Int → Bool
  | none => false
  | some v => decide (v ≠ 0)

/-- The five reparenting UPDATE statements of the merge: move every chats,
group_links, channel_links, verify_tokens and dm_verify_tokens row from the
losing owner id to the surviving owner id. -/
def reparent (s : Store) (fromId toId : Int) : Store :=
  { s with
    chats := s.chats.map (fun c =>
      if c.owner_user_id = fromId then { c with owner_user_id := toId } else c),
    group_links := s.group_links.map (fun l =>
      if l.owner_user_id = fromId then { l with owner_user_id := toId } else l),
    channel_links := s.channel_links.map (fun l =>
      if l.owner_user_id = fromId then { l with owner_user_id := toId } else l),
    verify_tokens := s.verify_tokens.map (fun t =>
      if t.owner_user_id = fromId then { t with owner_user_id := toId } else t),
    dm_verify_tokens := s.dm_verify_tokens.map (fun t =>
      if t.owner_user_id = fromId then { t with owner_user_id := toId } else t) }

/-- UPDATE users SET tg_user_id=? WHERE id=?.  The unique index
idx_users_tg on users(tg_user_id) makes this raise IntegrityError when a
different row already carries that identity; modelled by none. -/
def setUserTg (s : Store) (uid tg_user_id : Int) : Option Store :=
  if s.users.any (fun u => decide (u.id ≠ uid ∧ u.tg_user_id = some tg_user_id)) then
    none
  else
    some { s with users := s.users.map (fun u =>
      if u.id = uid then { u with tg_user_id := some tg_user_id } else u) }

/-- UPDATE users SET bale_user_id=? WHERE id=?, guarded by idx_users_bale. -/
def setUserBale (s : Store) (uid bale_user_id : Int) : Option Store :=
  if s.users.any (fun u => decide (u.id ≠ uid ∧ u.bale_user_id = some bale_user_id)) then
    none
  else
    some { s with users := s.users.map (fun u =>
      if u.id = uid then { u with bale_user_id := some bale_user_id } else u) }

/-- DELETE FROM users WHERE id=?. -/
def delUser (s : Store) (uid : Int) : Store :=
  { s with users := s.users.filter (fun u => decide (u.id ≠ uid)) }

/-- merge_user_accounts, one transaction.  Branches exactly as the source:
both identities map to distinct owners - reparent everything onto the Bale
owner, set its tg_user_id, delete the TG owner; only a TG owner - set its
bale_user_id; a Bale owner (also covering the same-owner case) - set its
tg_user_id; neither - fall back to get_or_create_user_by_tg.  A none result
models the raised exception (the transaction was rolled back, the store is
unchanged).  In the distinct-owner branch the source updates the survivor
before deleting the loser, so the unique index on users.tg_user_id still
sees the loser carrying the same identity. -/
def merge_user_accounts (s : Store) (now : Nat) (tg_user_id bale_user_id : Int) :
    Option (Int × Store) :=
  let tgo := findTgOwner s tg_user_id
  let bo := findBaleOwner s bale_user_id
  if truthyId tgo && truthyId bo && decide (tgo ≠ bo) then
    match tgo, bo with
    | some a, some b =>
      let s1 := reparent s a b
      match setUserTg s1 b tg_user_id with
      | none => none
      | some s2 => some (b, delUser s2 a)
    | _, _ => none
  else if truthyId tgo && !truthyId bo then
    match tgo with
    | some a => (setUserBale s a bale_user_id).map (fun s2 => (a, s2))
    | none => none
  else if truthyId bo then
    match bo with
    | some b => (setUserTg s b tg_user_id).map (fun s2 => (b, s2))
    | none => none
  else
    some (get_or_create_user_by_tg s tg_user_id now)

-- ------------------------------------------------------------------
-- Random code generators (gen_code and the DM code)
-- ------------------------------------------------------------------

/-- The alphabet of gen_code: string.ascii_uppercase + string.digits,
36 characters. -/
def codeAlphabet : List Char :=
  "ABCDEFGHIJKLMNOPQRSTUVWXYZ0123456789".toList

/-- Character drawn for one position of a gen_code body. -/
def codeChar (i : Fin 36) : Char :=
  codeAlphabet.getD i 'A'

/-- gen_code as a function of its randomness: random.choices draws six
independent positions of the 36-character alphabet, so the sampled
randomness is a function from Fin 6 to Fin 36; the result is
prefix-dash-body. -/
def gen_code (pfx : String) (choice : Fin 6 → Fin 36) : String :=
  pfx ++ "-" ++ String.mk (List.ofFn (fun i => codeChar (choice i)))

/-- The set of codes gen_code can produce for a fixed prefix. -/
def genCodeSpace (pfx : String) : Finset String :=
  Finset.image (gen_code pfx) Finset.univ

/-- The alphabet of the DM code body: uuid4().hex[:8].upper() is eight
uppercase hexadecimal digits. -/
def hexAlphabet : List Char := "0123456789ABCDEF".toList

/-- Character drawn for one position of a DM code body. -/
def hexChar (i : Fin 16) : Char :=
  hexAlphabet.getD i 'A'

/-- The DM code generator as a function of its randomness: DM- followed by
eight hex digits of the uuid. -/
def gen_dm_code (choice : Fin 8 → Fin 16) : String :=
  "DM-" ++ String.mk (List.ofFn (fun i => hexChar (choice i)))

/-- The set of codes the DM generator can produce. -/
def dmCodeSpace : Finset String :=
  Finset.image gen_dm_code Finset.univ

-- ------------------------------------------------------------------
-- Inbound messages, outbound sends
-- ------------------------------------------------------------------

/-- Content of an outbound send, per the content types the source forwards.
File payloads are carried as platform file ids. -/
inductive Content where
  | ctext (t : String)
  | cphoto (fileId : Int) (caption : String)
  | cdoc (fileId : Int) (filename : String) (caption : String)
  | cvideo (fileId : Int) (caption : String)
deriving DecidableEq, Repr

/-- One outbound send produced by routing: destination platform, destination
chat id, content. -/
structure Forward where
  dest : Platform
  chat_id : Int
  content : Content
deriving DecidableEq, Repr

/-- Telegram chat kinds as aiogram reports them. -/
inductive TgKind where
  | priv
  | group
  | supergroup
  | channel
deriving DecidableEq, Repr

/-- A normalized inbound Telegram message: chat kind and id, chat title,
the author id when a from_user is present, the rendered tg_name of the
author, text, caption, and the photo file id when a photo is attached.
The source forwards only text (plus, on the DM path, photos); the remaining
media branches are elided in app.py itself. -/
structure TgMsg where
  chat_type : TgKind
  chat_id : Int
  title : String
  from_id : Option Int
  sender : String
  text : Option String
  caption : Option String
  photo : Option Int
deriving DecidableEq, Repr

/-- Bale chat kinds (the source compares chat.type strings). -/
inductive BKind where
  | bpriv
  | bgroup
  | bchannel
  | bother
deriving DecidableEq, Repr

/-- A normalized inbound Bale message.  author_id is 0 when the update has
no author (getattr default in the source); sender is bale_name(author). -/
structure BaleMsg where
  chat_type : BKind
  chat_id : Int
  title : String
  author_id : Int
  sender : String
  text : Option String
  caption : Option String
  photo : Option Int
  document : Option (Int × String)
  video : Option Int
deriving DecidableEq, Repr

/-- prefix_with_username from the source. -/
def prefix_with_username (username text : String) : String :=
  username ++ " sent this message: " ++ text

/-- Kernel-friendly startswith on strings. -/
def startsWithText (t pat : String) : Bool :=
  pat.toList.isPrefixOf t.toList

/-- Python str.strip() restricted to spaces. -/
def stripSpaces (l : List Char) : List Char :=
  ((l.dropWhile (fun c => c = ' ')).reverse.dropWhile (fun c => c = ' ')).reverse

/-- Python text.split(maxsplit=1): drop leading whitespace, take the first
token, drop the whitespace run after it, keep the rest as one piece. -/
def pySplit1 (t : String) : List String :=
  let l := t.toList.dropWhile (fun c => c = ' ')
  if l.isEmpty then []
  else
    let tok := l.takeWhile (fun c => c ≠ ' ')
    let rest := (l.dropWhile (fun c => c ≠ ' ')).dropWhile (fun c => c = ' ')
    if rest.isEmpty then [String.mk tok] else [String.mk tok, String.mk rest]

/-- Extract the CODE argument of a verify command:
parts[1].strip() if len(parts) == 2 else the empty string. -/
def cmdArg (t : String) : String :=
  match pySplit1 t with
  | [_, a] => String.mk (stripSpaces a.toList)
  | _ => ""

/-- Python or on two optional strings: the left one if truthy (present and
nonempty), else the right. -/
def pyStrOr (a b : Option String) : Option String :=
  match a with
  | some t => if t = "" then b else some t
  | none => b

/-- Python truthiness of an optional string. -/
def strTruthy : Option String → Bool
  | some t => decide (t ≠ "")
  | none => false

/-- Python expression text or default for a string default. -/
def pyStrElse (a : Option String) (d : String) : String :=
  match a with
  | some t => if t = "" then d else t
  | none => d

/-- Decimal value of a digit list. -/
def digitsToNat (l : List Char) : Nat :=
  l.foldl (fun a c => a * 10 + (c.toNat - 48)) 0

/-- Python int() on a stripped token: optionally one leading minus, then at
least one digit; anything else raises, modelled as none. -/
def parseInt : List Char → Option Int
  | '-' :: rest =>
    if !rest.isEmpty && rest.all Char.isDigit then
      some (-(Int.ofNat (digitsToNat rest)))
    else none
  | l =>
    if !l.isEmpty && l.all Char.isDigit then some (Int.ofNat (digitsToNat l))
    else none

-- ------------------------------------------------------------------
-- Telegram handlers, in aiogram registration order
-- ------------------------------------------------------------------

/-- on_tg_verify_dm: consume the DM code for (tg, this chat); on success set
the owner's dm_target_telegram_chat_id to this chat.  Never forwards. -/
def tg_verify_dm_flow (s : Store) (now : Nat) (m : TgMsg) :
    List Forward × Store :=
  let code := cmdArg (m.text.getD "")
  let (r, s1) := consume_dm_verify_code s now code .tg m.chat_id
  match r with
  | none => ([], s1)
  | some owner =>
    ([], { s1 with users := s1.users.map (fun u =>
        if u.id = owner then
          { u with dm_target_telegram_chat_id := some m.chat_id } else u) })

/-- on_tg_await_bale_id (the AWAIT_BALE_ID wizard): if the message is all
digits, merge the accounts and mint a DM verification code for the given
Bale id; exceptions from the merge are caught by the handler, leaving the
rolled-back store.  Never forwards. -/
def tg_wizard_flow (s : Store) (now : Nat) (freshCode : String) (uid : Int)
    (m : TgMsg) : List Forward × Store :=
  let raw := stripSpaces (m.text.getD "").toList
  if !raw.isEmpty && raw.all Char.isDigit then
    let baleId : Int := Int.ofNat (digitsToNat raw)
    match merge_user_accounts s now uid baleId with
    | none => ([], s)
    | some (owner, s1) =>
      match create_dm_verify_code s1 now owner .bale baleId freshCode with
      | none => ([], s1)
      | some s2 => ([], s2)
  else ([], s)

/-- Forwarding part of on_tg_dm: find-or-create the owner for the sender,
then forward to the owner's TG-to-Bale DM target when one is set (row[0]
truthiness: a stored 0 is treated as unset).  Text first, else photo; the
remaining media branches are elided in the source itself. -/
def tg_dm_forward (s : Store) (now : Nat) (m : TgMsg) :
    List Forward × Store :=
  let r := get_or_create_user_by_tg s (m.from_id.getD 0) now
  let owner := r.1
  let s1 := r.2
  match s1.users.find? (fun u => decide (u.id = owner)) with
  | none => ([], s1)
  | some u =>
    match u.dm_target_bale_chat_id with
    | none => ([], s1)
    | some target =>
      if target = 0 then ([], s1)
      else
        let pfx := "[From Telegram DM] " ++ m.sender ++ ": "
        if strTruthy m.text then
          ([⟨.bale, target, .ctext (pfx ++ m.text.getD "")⟩], s1)
        else
          match m.photo with
          | some p => ([⟨.bale, target, .cphoto p (pfx ++ m.caption.getD "")⟩], s1)
          | none => ([], s1)

/-- on_tg_dm: slash commands are answered locally and never forwarded;
everything else goes to the DM forwarding path. -/
def tg_dm_handler (s : Store) (now : Nat) (m : TgMsg) :
    List Forward × Store :=
  if strTruthy m.text && startsWithText (m.text.getD "") "/" then ([], s)
  else tg_dm_forward s now m

/-- on_tg_verify_in_group: drop the bridge bot's own messages, require a
two-part command, consume the code for (tg, sender), require the token kind
to match the chat kind, then register the chat.  Never forwards. -/
def tg_verify_flow (s : Store) (now : Nat) (botId : Int) (m : TgMsg) :
    List Forward × Store :=
  if (match m.from_id with
      | some fid => decide (fid = botId)
      | none => false) then ([], s)
  else if (pySplit1 (m.text.getD "")).length ≠ 2 then ([], s)
  else
    let code := cmdArg (m.text.getD "")
    let pct : CKind :=
      if m.chat_type = .group ∨ m.chat_type = .supergroup then .group
      else .channel
    let r := consume_verify_code s now code .tg (m.from_id.getD 0)
    match r.1 with
    | none => ([], r.2)
    | some (owner, ct) =>
      if ct ≠ pct then ([], r.2)
      else ([], register_chat r.2 now owner .tg ct m.chat_id m.title)

/-- on_tg_group_forward: drop when no author or the author is the bridge bot
itself; look up the group pairing; silently drop when absent or disabled;
otherwise forward the text (or caption) with the sender-name prefix. -/
def on_tg_group_forward (s : Store) (botId : Int) (m : TgMsg) :
    List Forward × Store :=
  match m.from_id with
  | none => ([], s)
  | some fid =>
    if fid = botId then ([], s)
    else
      match find_group_link_by_tg s m.chat_id with
      | none => ([], s)
      | some (bgid, enabled) =>
        if !enabled then ([], s)
        else
          let text := pyStrOr m.text m.caption
          if strTruthy text then
            ([⟨.bale, bgid, .ctext (prefix_with_username m.sender (text.getD ""))⟩], s)
          else ([], s)

/-- on_tg_channel_post: drop when a from_user is present and is the bridge
bot; look up the channel pairing; drop when absent or disabled; otherwise
forward the text without attribution. -/
def on_tg_channel_post (s : Store) (botId : Int) (m : TgMsg) :
    List Forward × Store :=
  if (match m.from_id with
      | some fid => decide (fid = botId)
      | none => false) then ([], s)
  else
    match find_channel_link_by_tg s m.chat_id with
    | none => ([], s)
    | some (bcid, enabled) =>
      if !enabled then ([], s)
      else
        let text := pyStrOr m.text m.caption
        if strTruthy text then ([⟨.bale, bcid, .ctext (text.getD "")⟩], s)
        else ([], s)

/-- Dispatch of one Telegram message update across the registered handlers,
in registration order: the exact-command menu handler (private only), the
verify_dm handler (any chat type), the AWAIT_BALE_ID wizard (private, sender
in the wizard map), the generic DM handler (private), the verify handler
(any chat type whose text starts with /verify), then group forwarding.
wiz is the set of user ids in TG_WIZ; freshCode stands for the random DM
code the wizard would mint. -/
def tg_message_dispatch (wiz : List Int) (s : Store) (now : Nat)
    (botId : Int) (freshCode : String) (m : TgMsg) : List Forward × Store :=
  if m.chat_type = .priv ∧
      (m.text = some "/start" ∨ m.text = some "/help" ∨ m.text = some "/myid") then
    ([], s)
  else if startsWithText (m.text.getD "") "/verify_dm" then
    tg_verify_dm_flow s now m
  else if decide (m.chat_type = .priv) &&
      (match m.from_id with
        | some fid => decide (fid ∈ wiz)
        | none => false) then
    tg_wizard_flow s now freshCode (m.from_id.getD 0) m
  else if m.chat_type = .priv then tg_dm_handler s now m
  else if startsWithText (m.text.getD "") "/verify" then
    tg_verify_flow s now botId m
  else if m.chat_type = .group ∨ m.chat_type = .supergroup then
    on_tg_group_forward s botId m
  else ([], s)

-- ------------------------------------------------------------------
-- Bale message dispatch (poll_bale_updates, message updates)
-- ------------------------------------------------------------------

/-- Bale /verify_dm in any chat: consume the DM code for (bale, this chat);
on success set the owner's dm_target_bale_chat_id to this chat. -/
def bale_verify_dm_flow (s : Store) (now : Nat) (m : BaleMsg) :
    List Forward × Store :=
  let text := pyStrOr m.text m.caption
  let code := cmdArg (text.getD "")
  let (r, s1) := consume_dm_verify_code s now code .bale m.chat_id
  match r with
  | none => ([], s1)
  | some owner =>
    ([], { s1 with users := s1.users.map (fun u =>
        if u.id = owner then
          { u with dm_target_bale_chat_id := some m.chat_id } else u) })

/-- Lowercased, space-stripped text used for the Bale command comparisons
(text.strip().lower()). -/
def baleCmdNorm (t : String) : String :=
  String.mk ((stripSpaces t.toList).map Char.toLower)

/-- Bale private-chat branch: find-or-create the owner, answer /myid and
/start and /help locally, run the SET_DM_BALE2TG wizard, optionally mirror
the DM to the operator chat, then forward to the owner's Bale-to-TG DM
target when set.  wiz is the set of author ids in SET_DM_BALE2TG mode;
mirror is the operator chat when DM mirroring is configured. -/
def bale_private_flow (s : Store) (now : Nat) (wiz : List Int)
    (mirror : Option Int) (m : BaleMsg) : List Forward × Store :=
  let r := get_or_create_user_by_bale s m.author_id now
  let owner := r.1
  let s1 := r.2
  let text := pyStrOr m.text m.caption
  if (match text with
      | some t => decide (baleCmdNorm t = "/myid")
      | none => false) then
    ([], s1)
  else if (match text with
      | some t => decide (baleCmdNorm t = "/start" ∨ baleCmdNorm t = "/help")
      | none => false) then
    ([], s1)
  else if m.author_id ∈ wiz then
    let raw := stripSpaces (text.getD "").toList
    if !raw.isEmpty && !(raw.dropWhile (fun c => c = '-')).isEmpty &&
        (raw.dropWhile (fun c => c = '-')).all Char.isDigit then
      match parseInt raw with
      | some v =>
        ([], { s1 with users := s1.users.map (fun u =>
            if u.id = owner then
              { u with dm_target_telegram_chat_id := some v } else u) })
      | none => ([], s1)
    else ([], s1)
  else
    let mirrorSends : List Forward :=
      match mirror with
      | some oc =>
        [⟨.bale, oc, .ctext ("[Bale DM] " ++ m.sender ++ ": " ++
            pyStrElse text "[non-text]")⟩]
      | none => []
    let fwd : List Forward :=
      match s1.users.find? (fun u => decide (u.id = owner)) with
      | none => []
      | some u =>
        match u.dm_target_telegram_chat_id with
        | none => []
        | some tgt =>
          if tgt = 0 then []
          else if strTruthy text then
            [⟨.tg, tgt, .ctext ("[From Bale DM] " ++ m.sender ++ ": " ++
                text.getD "")⟩]
          else
            match m.photo with
            | some p =>
              [⟨.tg, tgt, .cphoto p ("[From Bale DM] " ++ m.sender ++ ": " ++
                  m.caption.getD "")⟩]
            | none =>
              match m.document with
              | some (d, name) =>
                [⟨.tg, tgt, .cdoc d name ("[From Bale DM] " ++ m.sender ++
                    ": " ++ m.caption.getD "")⟩]
              | none =>
                match m.video with
                | some v =>
                  [⟨.tg, tgt, .cvideo v ("[From Bale DM] " ++ m.sender ++
                      ": " ++ m.caption.getD "")⟩]
                | none =>
                  [⟨.tg, tgt, .ctext ("[From Bale DM] " ++ m.sender ++
                      ": [unsupported content]")⟩]
    (mirrorSends ++ fwd, s1)

/-- Bale /verify in a group or channel: consume the code for (bale, author),
require the token kind to match the chat kind, then register the chat. -/
def bale_verify_flow (s : Store) (now : Nat) (m : BaleMsg) :
    List Forward × Store :=
  let text := pyStrOr m.text m.caption
  let code := cmdArg (text.getD "")
  match (match m.chat_type with
      | .bgroup => some CKind.group
      | .bchannel => some CKind.channel
      | _ => none) with
  | none => ([], s)
  | some expected =>
    let r := consume_verify_code s now code .bale m.author_id
    match r.1 with
    | none => ([], r.2)
    | some (owner, ct) =>
      if ct ≠ expected then ([], r.2)
      else ([], register_chat r.2 now owner .bale expected m.chat_id m.title)

/-- Bale group branch: look up the pairing by the Bale group id; silently
drop when absent or disabled; otherwise forward text, photo, document and
video, each with the sender-name prefix. -/
def bale_group_forward (s : Store) (m : BaleMsg) : List Forward × Store :=
  match find_group_link_by_bale s m.chat_id with
  | none => ([], s)
  | some (tgid, enabled) =>
    if !enabled then ([], s)
    else
      let text := pyStrOr m.text m.caption
      let f1 : List Forward :=
        if strTruthy text then
          [⟨.tg, tgid, .ctext (prefix_with_username m.sender (text.getD ""))⟩]
        else []
      let f2 : List Forward :=
        match m.photo with
        | some p =>
          [⟨.tg, tgid, .cphoto p (prefix_with_username m.sender (m.caption.getD ""))⟩]
        | none => []
      let f3 : List Forward :=
        match m.document with
        | some (d, name) =>
          [⟨.tg, tgid, .cdoc d name (prefix_with_username m.sender (m.caption.getD ""))⟩]
        | none => []
      let f4 : List Forward :=
        match m.video with
        | some v =>
          [⟨.tg, tgid, .cvideo v (prefix_with_username m.sender (m.caption.getD ""))⟩]
        | none => []
      (f1 ++ f2 ++ f3 ++ f4, s)

/-- Bale channel branch: look up the pairing by the Bale channel id;
silently drop when absent or disabled; otherwise forward text, photo,
document and video without attribution. -/
def bale_channel_forward (s : Store) (m : BaleMsg) : List Forward × Store :=
  match find_channel_link_by_bale s m.chat_id with
  | none => ([], s)
  | some (tcid, enabled) =>
    if !enabled then ([], s)
    else
      let text := pyStrOr m.text m.caption
      let f1 : List Forward :=
        if strTruthy text then [⟨.tg, tcid, .ctext (text.getD "")⟩] else []
      let f2 : List Forward :=
        match m.photo with
        | some p => [⟨.tg, tcid, .cphoto p (m.caption.getD "")⟩]
        | none => []
      let f3 : List Forward :=
        match m.document with
        | some (d, name) => [⟨.tg, tcid, .cdoc d name (m.caption.getD "")⟩]
        | none => []
      let f4 : List Forward :=
        match m.video with
        | some v => [⟨.tg, tcid, .cvideo v (m.caption.getD "")⟩]
        | none => []
      (f1 ++ f2 ++ f3 ++ f4, s)

/-- Dispatch of one Bale message update, in the source order: the self-loop
guard (a truthy author id equal to the bridge's own Bale id is discarded
before anything else), then /verify_dm, the private branch, /verify, the
group branch, the channel branch. -/
def bale_message_dispatch (wiz : List Int) (mirror : Option Int) (s : Store)
    (now : Nat) (selfId : Int) (m : BaleMsg) : List Forward × Store :=
  let text := pyStrOr m.text m.caption
  if m.author_id ≠ 0 ∧ m.author_id = selfId then ([], s)
  else if strTruthy text && startsWithText (text.getD "") "/verify_dm" then
    bale_verify_dm_flow s now m
  else if m.chat_type = .bpriv then bale_private_flow s now wiz mirror m
  else if strTruthy text && startsWithText (text.getD "") "/verify" then
    bale_verify_flow s now m
  else if m.chat_type = .bgroup then bale_group_forward s m
  else if m.chat_type = .bchannel then bale_channel_forward s m
  else ([], s)

-- ------------------------------------------------------------------
-- Concrete stores and messages used by witnesses and counterexamples,
-- and the database well-formedness predicate
-- ------------------------------------------------------------------

/-- Concrete witness store for claim C1: one freshly minted token. -/
def witStore1 : Store :=
  ⟨[], [], [], [],
   [⟨"G-AAAAAA", 1, .tg, .group, 5, 600, false⟩], []⟩

/-- witStore1 after the successful redemption. -/
def witStore1' : Store :=
  ⟨[], [], [], [],
   [⟨"G-AAAAAA", 1, .tg, .group, 5, 600, true⟩], []⟩

/-- The empty database. -/
def emptyS : Store := ⟨[], [], [], [], [], []⟩

/-- A concrete Telegram group message from an unlinked chat. -/
def tgMsgW : TgMsg := ⟨.group, 1, "t", some 5, "@u", some "hi", none, none⟩

/-- A concrete Bale group message from an unlinked chat. -/
def baleMsgW : BaleMsg := ⟨.bgroup, 1, "t", 5, "@u", some "hi", none, none, none, none⟩

/-- A concrete Telegram group message authored by the bot itself (id 9). -/
def tgSelfGroupMsg : TgMsg := ⟨.group, 1, "t", some 9, "@bot", some "hi", none, none⟩

/-- A concrete Telegram channel post authored by the bot itself (id 9). -/
def tgSelfChanMsg : TgMsg := ⟨.channel, 1, "t", some 9, "@bot", some "hi", none, none⟩

/-- A concrete Bale group message authored by the bridge's own Bale id 7. -/
def baleSelfMsg : BaleMsg := ⟨.bgroup, 1, "t", 7, "@bot", some "hi", none, none, none, none⟩

/-- A store with chat 10 on Telegram already registered to owner 1. -/
def c9store : Store :=
  ⟨[], [⟨1, 1, .tg, .group, 10, "t", 0⟩], [], [], [], []⟩

/-- Two distinct owners: owner 1 holds Telegram identity 5 (and a chat),
owner 2 holds Bale identity 7.  This is exactly merge case 4. -/
def c3store : Store :=
  ⟨[⟨1, some 5, none, none, none, 0⟩, ⟨2, none, some 7, none, none, 0⟩],
   [⟨1, 1, .tg, .group, 100, "g", 0⟩], [], [], [], []⟩

/-- Well-formedness of the users table, exactly the guarantees the real
database provides: AUTOINCREMENT ids are positive, the primary key makes
rows with equal ids equal, and the unique indexes idx_users_tg and
idx_users_bale make rows sharing a non-null platform identity equal. -/
def WF (s : Store) : Prop :=
  (∀ u ∈ s.users, 0 < u.id) ∧
  (∀ u ∈ s.users, ∀ v ∈ s.users, u.id = v.id → u = v) ∧
  (∀ u ∈ s.users, ∀ v ∈ s.users, u.tg_user_id ≠ none →
    u.tg_user_id = v.tg_user_id → u = v) ∧
  (∀ u ∈ s.users, ∀ v ∈ s.users, u.bale_user_id ≠ none →
    u.bale_user_id = v.bale_user_id → u = v)

/-- A store whose single owner already carries both identities. -/
def c7store : Store := ⟨[⟨1, some 5, some 7, none, none, 0⟩], [], [], [], [], []⟩

-- ------------------------------------------------------------------
-- Helper lemmas
-- ------------------------------------------------------------------

theorem codeChar_injective : Function.Injective codeChar := by decide

theorem hexChar_injective : Function.Injective hexChar := by decide

theorem gen_code_injective (pfx : String) :
    Function.Injective (gen_code pfx) := by
  intro c1 c2 h
  have hd := congrArg String.data h
  simp only [gen_code, String.data_append] at hd
  have hl : List.ofFn (fun i => codeChar (c1 i)) =
      List.ofFn (fun i => codeChar (c2 i)) :=
    List.append_cancel_left hd
  funext i
  exact codeChar_injective (congrFun (List.ofFn_inj.mp hl) i)

theorem gen_dm_code_injective : Function.Injective gen_dm_code := by
  intro c1 c2 h
  have hd := congrArg String.data h
  simp only [gen_dm_code, String.data_append] at hd
  have hl : List.ofFn (fun i => hexChar (c1 i)) =
      List.ofFn (fun i => hexChar (c2 i)) :=
    List.append_cancel_left hd
  funext i
  exact hexChar_injective (congrFun (List.ofFn_inj.mp hl) i)

theorem genCodeSpace_card (pfx : String) :
    (genCodeSpace pfx).card = 36 ^ 6 := by
  rw [genCodeSpace, Finset.card_image_of_injective _ (gen_code_injective pfx),
    Finset.card_univ, Fintype.card_fun]
  simp

theorem dmCodeSpace_card : dmCodeSpace.card = 16 ^ 8 := by
  rw [dmCodeSpace, Finset.card_image_of_injective _ gen_dm_code_injective,
    Finset.card_univ, Fintype.card_fun]
  simp

-- ------------------------------------------------------------------
-- Claim C10: code space cardinality
-- ------------------------------------------------------------------

/-- Claim C10, counterexample: the claim asserts every verification code
generator draws from a space of at least 2 to the 36 values, but gen_code
has only 36 to the 6 (about 2.18 billion, roughly 31 bits) possible outputs
for a fixed prefix, which is strictly below 2 to the 36. -/
theorem claim_C10_counterexample : (genCodeSpace "G").card < 2 ^ 36 := by
  rw [genCodeSpace_card]
  norm_num

/-- Claim C10 as amended: the possible outputs of gen_code for a fixed
prefix number exactly 36 to the 6 and those of the DM code generator exactly
16 to the 8 = 2 to the 32; both spaces therefore have cardinality at least
2 to the 31 (about 31 bits of entropy), not the claimed 2 to the 36. -/
theorem claim_C10_entropy (pfx : String) :
    2 ^ 31 ≤ (genCodeSpace pfx).card ∧ 2 ^ 31 ≤ dmCodeSpace.card ∧
    (genCodeSpace pfx).card = 36 ^ 6 ∧ dmCodeSpace.card = 16 ^ 8 := by
  rw [genCodeSpace_card, dmCodeSpace_card]
  norm_num

-- ------------------------------------------------------------------
-- Claims C1, C5, C6: the verify-token protocol
-- ------------------------------------------------------------------

/-- Inversion of a successful consume_verify_code call: the lookup found an
unconsumed, unexpired token for (code, platform, user), the returned pair is
that token's owner and kind, and the store came back with every token of
that code marked consumed. -/
theorem consume_success_inv {s : Store} {now : Nat} {code : String}
    {p : Platform} {uid : Int} {r : Int × CKind} {s1 : Store}
    (h : consume_verify_code s now code p uid = (some r, s1)) :
    ∃ t, s.verify_tokens.find? (fun t => decide (t.code = code ∧
        t.platform = p ∧ t.platform_user_id = uid)) = some t ∧
      t.consumed = false ∧ ¬ t.expires_at < now ∧
      r = (t.owner_user_id, t.chat_type) ∧
      s1 = { s with verify_tokens := s.verify_tokens.map (fun u =>
        if u.code = code then { u with consumed := true } else u) } := by
  unfold consume_verify_code at h
  cases hf : s.verify_tokens.find? (fun t => decide (t.code = code ∧
      t.platform = p ∧ t.platform_user_id = uid)) with
  | none => rw [hf] at h; exact absurd (congrArg Prod.fst h) (by simp)
  | some t =>
    rw [hf] at h
    by_cases hc : t.consumed
    · simp [hc] at h
    · by_cases he : t.expires_at < now
      · simp [hc, he] at h
      · refine ⟨t, rfl, by simpa using hc, he, ?_, ?_⟩
        · have := congrArg Prod.fst h
          simp [hc, he] at this
          exact this.symm
        · have := congrArg Prod.snd h
          simp [hc, he] at this
          exact this.symm

/-- Claim C1: redemption is at most once.  After consume_verify_code
succeeds, every further redemption attempt with the same code on the
resulting store is rejected, at any time, for every platform and every
user id. -/
theorem claim_C1_single_use (s : Store) (now : Nat) (code : String)
    (p : Platform) (uid : Int) (r : Int × CKind) (s1 : Store)
    (h : consume_verify_code s now code p uid = (some r, s1)) :
    ∀ (now2 : Nat) (p2 : Platform) (uid2 : Int),
      (consume_verify_code s1 now2 code p2 uid2).1 = none := by
  obtain ⟨t, _, _, _, _, hs1⟩ := consume_success_inv h
  intro now2 p2 uid2
  unfold consume_verify_code
  cases hf : s1.verify_tokens.find? (fun t => decide (t.code = code ∧
      t.platform = p2 ∧ t.platform_user_id = uid2)) with
  | none => simp
  | some t2 =>
    have hp := List.find?_some hf
    simp only [decide_eq_true_eq] at hp
    have hm := List.mem_of_find?_eq_some hf
    rw [hs1] at hm
    simp only [List.mem_map] at hm
    obtain ⟨t0, _, ht0⟩ := hm
    have hc2 : t2.consumed = true := by
      by_cases hc0 : t0.code = code
      · rw [if_pos hc0] at ht0
        rw [← ht0]
      · rw [if_neg hc0] at ht0
        exact absurd (ht0 ▸ hp.1) hc0
    simp [hc2]

/-- Claim C6: a successful redemption requires a stored token agreeing with
the supplied code, the redeeming platform, and the redeeming user id; when
no stored token matches all three, the call is rejected. -/
theorem claim_C6_exact_binding (s : Store) (now : Nat) (code : String)
    (p : Platform) (uid : Int) :
    ((∀ t ∈ s.verify_tokens,
        ¬(t.code = code ∧ t.platform = p ∧ t.platform_user_id = uid)) →
      (consume_verify_code s now code p uid).1 = none) ∧
    (∀ r, (consume_verify_code s now code p uid).1 = some r →
      ∃ t ∈ s.verify_tokens, t.code = code ∧ t.platform = p ∧
        t.platform_user_id = uid ∧ r = (t.owner_user_id, t.chat_type)) := by
  constructor
  · intro hnone
    have hf : s.verify_tokens.find? (fun t => decide (t.code = code ∧
        t.platform = p ∧ t.platform_user_id = uid)) = none := by
      rw [List.find?_eq_none]
      intro t ht
      simpa using hnone t ht
    unfold consume_verify_code
    rw [hf]
  · intro r hr
    cases h : consume_verify_code s now code p uid with
    | mk res s2 =>
      rw [h] at hr
      simp only at hr
      subst hr
      obtain ⟨t, hf, _, _, hrt, _⟩ := consume_success_inv h
      have hp := List.find?_some hf
      simp only [decide_eq_true_eq] at hp
      exact ⟨t, List.mem_of_find?_eq_some hf, hp.1, hp.2.1, hp.2.2, hrt⟩

/-- Witness for claim C1 at a concrete input: the token of witStore1 is
redeemed once successfully, and the attempt to redeem the same code again is
rejected. -/
theorem claim_C1_witness :
    (consume_verify_code witStore1' 0 "G-AAAAAA" .tg 5).1 = none :=
  claim_C1_single_use witStore1 0 "G-AAAAAA" .tg 5 (1, .group) witStore1'
    (by decide) 0 .tg 5

/-- Witness for claim C6 at a concrete input: redeeming the minted code with
a different user id (6 instead of 5) is rejected. -/
theorem claim_C6_witness :
    (consume_verify_code witStore1 0 "G-AAAAAA" .tg 6).1 = none :=
  (claim_C6_exact_binding witStore1 0 "G-AAAAAA" .tg 6).1 (by decide)

/-- Claim C5, counterexample: a token is issued at time 0, so its expiry is
600 seconds later; redeeming it exactly at the expiry instant (now = 600,
now equal to the expiry) succeeds, because the source rejects only when the
expiry is strictly before now.  The claim says redemption at the expiry
instant is rejected. -/
theorem claim_C5_counterexample :
    create_verify_code ⟨[], [], [], [], [], []⟩ 0 1 .tg .group 5 "G-AAAAAA" =
      some ⟨[], [], [], [], [⟨"G-AAAAAA", 1, .tg, .group, 5, 600, false⟩], []⟩ ∧
    (consume_verify_code
        ⟨[], [], [], [], [⟨"G-AAAAAA", 1, .tg, .group, 5, 600, false⟩], []⟩
        600 "G-AAAAAA" .tg 5).1 = some (1, .group) :=
  ⟨by decide, by decide⟩

/-- Claim C5 as amended: for a token issued at time t0 (expiry t0 + 600),
redemption by the minting platform and user succeeds exactly when
now is at most t0 + 600: strictly after the expiry it always fails, and at
or before the expiry instant it never fails because of expiry; in
particular redemption exactly at the expiry instant is accepted, not
rejected. -/
theorem claim_C5_expiry (s : Store) (t0 now : Nat) (owner : Int)
    (p : Platform) (ct : CKind) (uid : Int) (code : String) (s1 : Store)
    (hfresh : ∀ t ∈ s.verify_tokens, t.code ≠ code)
    (hc : create_verify_code s t0 owner p ct uid code = some s1) :
    (consume_verify_code s1 now code p uid).1 = some (owner, ct) ↔
      now ≤ t0 + 600 := by
  have hany : s.verify_tokens.any (fun t => decide (t.code = code)) = false := by
    rw [List.any_eq_false]
    intro t ht
    simp [hfresh t ht]
  simp only [create_verify_code, hany, Bool.false_eq_true, if_false,
    Option.some.injEq] at hc
  have hfind : s1.verify_tokens.find? (fun t => decide (t.code = code ∧
      t.platform = p ∧ t.platform_user_id = uid)) =
      some ⟨code, owner, p, ct, uid, t0 + 600, false⟩ := by
    rw [← hc]
    simp only [List.find?_append]
    have h1 : s.verify_tokens.find? (fun t => decide (t.code = code ∧
        t.platform = p ∧ t.platform_user_id = uid)) = none := by
      rw [List.find?_eq_none]
      intro t ht
      simp only [decide_eq_true_eq, not_and]
      intro hcode
      exact absurd hcode (hfresh t ht)
    rw [h1]
    simp [List.find?]
  unfold consume_verify_code
  rw [hfind]
  by_cases hn : t0 + 600 < now
  · simp only [if_neg (by simp : ¬(false = true)), if_pos hn]
    constructor
    · intro hcontra
      exact absurd hcontra (by simp)
    · intro hle
      omega
  · simp only [if_neg (by simp : ¬(false = true)), if_neg hn]
    constructor
    · intro _
      omega
    · intro _
      trivial

/-- Witness for the amended claim C5 at a concrete input: the minted token
of the counterexample, redeemed at its exact expiry instant, succeeds, and
600 is at most 0 + 600. -/
theorem claim_C5_witness :
    (consume_verify_code
        ⟨[], [], [], [], [⟨"G-AAAAAA", 1, .tg, .group, 5, 601, false⟩], []⟩
        601 "G-AAAAAA" .tg 5).1 = some (1, .group) ↔ 601 ≤ 1 + 600 :=
  claim_C5_expiry ⟨[], [], [], [], [], []⟩ 1 601 1 .tg .group 5 "G-AAAAAA"
    ⟨[], [], [], [], [⟨"G-AAAAAA", 1, .tg, .group, 5, 601, false⟩], []⟩
    (by simp) (by decide)

-- ------------------------------------------------------------------
-- Claim C8: unpaired or disabled routing is silent and mutation-free
-- ------------------------------------------------------------------

/-- Claim C8: for a group or channel message whose origin chat has no
pairing row or whose pairing is disabled, each of the four forwarding
handlers (Telegram group, Telegram channel post, Bale group, Bale channel)
produces no outbound send and returns the store unchanged; the handlers are
total, so no error is raised. -/
theorem claim_C8_unpaired_silent (s : Store) (botId : Int) (m : TgMsg)
    (bm : BaleMsg) :
    ((find_group_link_by_tg s m.chat_id = none ∨
        ∃ g, find_group_link_by_tg s m.chat_id = some (g, false)) →
      on_tg_group_forward s botId m = ([], s)) ∧
    ((find_channel_link_by_tg s m.chat_id = none ∨
        ∃ g, find_channel_link_by_tg s m.chat_id = some (g, false)) →
      on_tg_channel_post s botId m = ([], s)) ∧
    ((find_group_link_by_bale s bm.chat_id = none ∨
        ∃ g, find_group_link_by_bale s bm.chat_id = some (g, false)) →
      bale_group_forward s bm = ([], s)) ∧
    ((find_channel_link_by_bale s bm.chat_id = none ∨
        ∃ g, find_channel_link_by_bale s bm.chat_id = some (g, false)) →
      bale_channel_forward s bm = ([], s)) := by
  refine ⟨?_, ?_, ?_, ?_⟩
  · intro h
    unfold on_tg_group_forward
    cases hf : m.from_id with
    | none => rfl
    | some fid =>
      by_cases hb : fid = botId
      · simp [hb]
      · rcases h with h | ⟨g, h⟩ <;> simp [hb, h]
  · intro h
    unfold on_tg_channel_post
    split
    · rfl
    · rcases h with h | ⟨g, h⟩ <;> simp [h]
  · intro h
    unfold bale_group_forward
    rcases h with h | ⟨g, h⟩ <;> simp [h]
  · intro h
    unfold bale_channel_forward
    rcases h with h | ⟨g, h⟩ <;> simp [h]

/-- Witness for claim C8 at a concrete input: on the empty store no pairing
exists for the origin chats, and all four handlers produce no send and
leave the store unchanged. -/
theorem claim_C8_witness :
    on_tg_group_forward emptyS 9 tgMsgW = ([], emptyS) ∧
    on_tg_channel_post emptyS 9 tgMsgW = ([], emptyS) ∧
    bale_group_forward emptyS baleMsgW = ([], emptyS) ∧
    bale_channel_forward emptyS baleMsgW = ([], emptyS) := by
  have h := claim_C8_unpaired_silent emptyS 9 tgMsgW baleMsgW
  exact ⟨h.1 (Or.inl (by decide)), h.2.1 (Or.inl (by decide)),
    h.2.2.1 (Or.inl (by decide)), h.2.2.2 (Or.inl (by decide))⟩

-- ------------------------------------------------------------------
-- Claim C2: self-loop elimination
-- ------------------------------------------------------------------

theorem tg_verify_dm_flow_fst (s : Store) (now : Nat) (m : TgMsg) :
    (tg_verify_dm_flow s now m).1 = [] := by
  simp only [tg_verify_dm_flow]
  repeat' split
  all_goals rfl

theorem tg_wizard_flow_fst (s : Store) (now : Nat) (freshCode : String)
    (uid : Int) (m : TgMsg) : (tg_wizard_flow s now freshCode uid m).1 = [] := by
  simp only [tg_wizard_flow]
  repeat' split
  all_goals rfl

theorem tg_verify_flow_fst (s : Store) (now : Nat) (botId : Int) (m : TgMsg) :
    (tg_verify_flow s now botId m).1 = [] := by
  simp only [tg_verify_flow]
  repeat' split
  all_goals rfl

theorem on_tg_group_forward_self (s : Store) (botId : Int) (m : TgMsg)
    (h : m.from_id = some botId) : on_tg_group_forward s botId m = ([], s) := by
  unfold on_tg_group_forward
  rw [h]
  simp

/-- Claim C2 as amended: the self-loop guard holds on the Telegram group and
supergroup path, on the Telegram channel-post path, and on every Bale path
(whenever the author id is truthy); the Telegram private path carries no
such guard (see the counterexample). -/
theorem claim_C2_selfloop_guard (wiz bwiz : List Int) (mirror : Option Int)
    (s : Store) (now : Nat) (botId selfId : Int) (fresh : String)
    (m : TgMsg) (bm : BaleMsg) :
    ((m.chat_type = .group ∨ m.chat_type = .supergroup) →
      m.from_id = some botId →
      (tg_message_dispatch wiz s now botId fresh m).1 = []) ∧
    (m.from_id = some botId → (on_tg_channel_post s botId m).1 = []) ∧
    (bm.author_id = selfId → bm.author_id ≠ 0 →
      (bale_message_dispatch bwiz mirror s now selfId bm).1 = []) := by
  refine ⟨?_, ?_, ?_⟩
  · intro hkind hfrom
    have hpriv : ¬ m.chat_type = TgKind.priv := by
      rcases hkind with h | h <;> simp [h]
    unfold tg_message_dispatch
    rw [if_neg (fun hx => hpriv hx.1)]
    by_cases h2 : startsWithText (m.text.getD "") "/verify_dm"
    · rw [if_pos h2]
      exact tg_verify_dm_flow_fst s now m
    · rw [if_neg h2]
      have hb : (decide (m.chat_type = TgKind.priv) &&
          (match m.from_id with
            | some fid => decide (fid ∈ wiz)
            | none => false)) = false := by
        simp [hpriv]
      rw [hb]
      simp only [Bool.false_eq_true, if_false]
      rw [if_neg hpriv]
      by_cases h5 : startsWithText (m.text.getD "") "/verify"
      · rw [if_pos h5]
        exact tg_verify_flow_fst s now botId m
      · rw [if_neg h5, if_pos hkind, on_tg_group_forward_self s botId m hfrom]
  · intro hfrom
    unfold on_tg_channel_post
    rw [hfrom]
    simp
  · intro h1 h2
    unfold bale_message_dispatch
    rw [if_pos ⟨h2, h1⟩]

/-- Claim C2, counterexample: a Telegram private message whose author id 99
equals the bridge bot's own Telegram id (botId = 99) is still forwarded to
the owner's TG-to-Bale DM target, because the Telegram private handler never
compares the author against the bot's own identity. -/
theorem claim_C2_counterexample :
    (tg_message_dispatch []
        ⟨[⟨1, some 99, none, some 42, none, 0⟩], [], [], [], [], []⟩
        0 99 "X"
        ⟨.priv, 99, "", some 99, "@me", some "hello", none, none⟩).1 =
      [⟨.bale, 42, .ctext "[From Telegram DM] @me: hello"⟩] := by
  decide

/-- Witness for the amended claim C2 at concrete inputs: the bot's own
messages are dropped on the Telegram group path, the Telegram channel path
and the Bale path. -/
theorem claim_C2_witness :
    (tg_message_dispatch [] emptyS 0 9 "X" tgSelfGroupMsg).1 = [] ∧
    (on_tg_channel_post emptyS 9 tgSelfChanMsg).1 = [] ∧
    (bale_message_dispatch [] none emptyS 0 7 baleSelfMsg).1 = [] := by
  have h := claim_C2_selfloop_guard [] [] none emptyS 0 9 7 "X"
    tgSelfGroupMsg baleSelfMsg
  refine ⟨h.1 (Or.inl rfl) rfl, ?_, h.2.2 rfl (by decide)⟩
  have h2 := claim_C2_selfloop_guard [] [] none emptyS 0 9 7 "X"
    tgSelfChanMsg baleSelfMsg
  exact h2.2.1 rfl

-- ------------------------------------------------------------------
-- Claim C9: register_chat conflict behaviour
-- ------------------------------------------------------------------

/-- Claim C9, counterexample: re-registering the already-registered
(tg, 10) chat under the different owner 2 completes normally and leaves the
store byte-for-byte unchanged; with INSERT OR IGNORE no constraint conflict
is surfaced to the caller, contradicting the rejected-and-surfaced part of
the claim (the existing owner is indeed unchanged). -/
theorem claim_C9_counterexample :
    register_chat c9store 5 2 .tg .group 10 "other" = c9store := by
  decide

/-- Claim C9 as amended: register_chat is an idempotent insert, and
re-registering an already-registered (platform, chat id) - under any owner,
any kind, any title - is silently ignored: the call returns normally with
the store unchanged, so the existing row's owner is never reassigned, but no
constraint conflict is surfaced either. -/
theorem claim_C9_register_idempotent (s : Store) (now now2 : Nat)
    (o1 o2 : Int) (p : Platform) (ct ct2 : CKind) (cid : Int)
    (t1 t2 : String) :
    ((∃ c ∈ s.chats, c.platform = p ∧ c.chat_id = cid) →
      register_chat s now2 o2 p ct2 cid t2 = s) ∧
    register_chat (register_chat s now o1 p ct cid t1) now2 o2 p ct2 cid t2 =
      register_chat s now o1 p ct cid t1 := by
  constructor
  · rintro ⟨c, hc, hp, hcid⟩
    have ha : s.chats.any
        (fun c => decide (c.platform = p ∧ c.chat_id = cid)) = true :=
      List.any_eq_true.mpr ⟨c, hc, by simp [hp, hcid]⟩
    unfold register_chat
    rw [if_pos ha]
  · by_cases h : s.chats.any
        (fun c => decide (c.platform = p ∧ c.chat_id = cid)) = true
    · unfold register_chat
      rw [if_pos h]
      rw [if_pos h]
    · unfold register_chat
      rw [if_neg h]
      have h2 : (({ s with chats := s.chats ++
          ([⟨nextChatId s, o1, p, ct, cid, t1, now⟩] : List ChatRow) } : Store).chats.any
          (fun c => decide (c.platform = p ∧ c.chat_id = cid))) = true := by
        show ((s.chats ++
          ([⟨nextChatId s, o1, p, ct, cid, t1, now⟩] : List ChatRow)).any
          (fun c => decide (c.platform = p ∧ c.chat_id = cid))) = true
        rw [List.any_append]
        simp
      rw [if_pos h2]

/-- Witness for the amended claim C9 at a concrete input: chat (tg, 10)
exists in c9store, and re-registering it under owner 2 with a different kind
and title is a silent no-op. -/
theorem claim_C9_witness :
    register_chat c9store 5 2 Platform.tg CKind.channel 10 "x" = c9store :=
  (claim_C9_register_idempotent c9store 0 5 1 2 .tg .group .channel 10 "t" "x").1
    (by decide)

-- ------------------------------------------------------------------
-- Claims C3 and C4: the account-merge branches that contradict the spec
-- ------------------------------------------------------------------

/-- Claim C3: on two distinct owners the merge raises instead of merging.
The source updates the survivor's tg_user_id while the loser row still
carries the same identity, so the unique index idx_users_tg fires, the
transaction rolls back and the exception is re-raised: no reparenting, no
deletion, no returned owner (modelled by none).  The claim describes the
intended all-into-the-Bale-owner merge, which the code never completes. -/
theorem claim_C3_merge_raises : merge_user_accounts c3store 0 5 7 = none := by
  decide

/-- Claim C4: when neither identity has an owner, the fallback
get_or_create_user_by_tg creates the fresh owner with only the Telegram
identity; bale_user_id stays NULL, contradicting the claim (and spec case 1)
that both identities are set.  The returned id is the fresh owner's id. -/
theorem claim_C4_fallback_only_tg :
    merge_user_accounts emptyS 0 5 7 =
      some (1, ⟨[⟨1, some 5, none, none, none, 0⟩], [], [], [], [], []⟩) := by
  decide

-- ------------------------------------------------------------------
-- Claim C7: merge idempotence
-- ------------------------------------------------------------------

theorem map_id_of_mem {α : Type} {f : α → α} {l : List α}
    (h : ∀ x ∈ l, f x = x) : l.map f = l :=
  (List.map_congr_left h).trans (List.map_id l)

theorem find?_map_pred {α β : Type} (f : α → β) (p : β → Bool) (q : α → Bool) :
    ∀ l : List α, (∀ x ∈ l, p (f x) = q x) →
      (l.map f).find? p = (l.find? q).map f := by
  intro l
  induction l with
  | nil => intro _; rfl
  | cons x t ih =>
    intro h
    simp only [List.map_cons, List.find?]
    rw [h x (by simp)]
    cases hq : q x with
    | true => rfl
    | false => exact ih (fun y hy => h y (by simp [hy]))

theorem find?_eq_of_unique {α : Type} (p : α → Bool) {l : List α} {a : α}
    (ha : a ∈ l) (hpa : p a = true)
    (huniq : ∀ x ∈ l, p x = true → x = a) : l.find? p = some a := by
  induction l with
  | nil => cases ha
  | cons x t ih =>
    simp only [List.find?]
    cases hx : p x with
    | true => rw [huniq x (by simp) hx]
    | false =>
      rcases List.mem_cons.mp ha with rfl | hat
      · rw [hpa] at hx; cases hx
      · exact ih hat (fun y hy hpy => huniq y (by simp [hy]) hpy)

theorem foldr_max_nonneg (l : List UserRow) :
    0 ≤ l.foldr (fun u m => max u.id m) 0 := by
  induction l with
  | nil => simp
  | cons u t ih => exact le_max_of_le_right ih

theorem nextUserId_pos (s : Store) : 0 < nextUserId s := by
  have := foldr_max_nonneg s.users
  unfold nextUserId
  linarith

theorem setTg_self (u : UserRow) (x : Int) (h : u.tg_user_id = some x) :
    { u with tg_user_id := some x } = u := by
  obtain ⟨a, b, c, d, e, f⟩ := u
  simp only at h
  subst h
  rfl

/-- Unpacking findTgOwner success: the underlying row. -/
theorem findTgOwner_some {s : Store} {tg a : Int}
    (h : findTgOwner s tg = some a) :
    ∃ u ∈ s.users,
      s.users.find? (fun u => decide (u.tg_user_id = some tg)) = some u ∧
      u.id = a ∧ u.tg_user_id = some tg := by
  unfold findTgOwner at h
  cases hf : s.users.find? (fun u => decide (u.tg_user_id = some tg)) with
  | none => rw [hf] at h; cases h
  | some u =>
    rw [hf] at h
    have hp := List.find?_some hf
    simp only [decide_eq_true_eq] at hp
    exact ⟨u, List.mem_of_find?_eq_some hf, rfl, by simpa using h, hp⟩

theorem findBaleOwner_some {s : Store} {bale a : Int}
    (h : findBaleOwner s bale = some a) :
    ∃ u ∈ s.users,
      s.users.find? (fun u => decide (u.bale_user_id = some bale)) = some u ∧
      u.id = a ∧ u.bale_user_id = some bale := by
  unfold findBaleOwner at h
  cases hf : s.users.find? (fun u => decide (u.bale_user_id = some bale)) with
  | none => rw [hf] at h; cases h
  | some u =>
    rw [hf] at h
    have hp := List.find?_some hf
    simp only [decide_eq_true_eq] at hp
    exact ⟨u, List.mem_of_find?_eq_some hf, rfl, by simpa using h, hp⟩

theorem findTgOwner_none {s : Store} {tg : Int}
    (h : findTgOwner s tg = none) :
    ∀ u ∈ s.users, u.tg_user_id ≠ some tg := by
  unfold findTgOwner at h
  intro u hu
  have hf := Option.map_eq_none.mp h
  have := List.find?_eq_none.mp hf u hu
  simpa using this

theorem findBaleOwner_none {s : Store} {bale : Int}
    (h : findBaleOwner s bale = none) :
    ∀ u ∈ s.users, u.bale_user_id ≠ some bale := by
  unfold findBaleOwner at h
  intro u hu
  have hf := Option.map_eq_none.mp h
  have := List.find?_eq_none.mp hf u hu
  simpa using this

theorem setUserTg_some {s : Store} {uid tg : Int}
    (h : ∀ u ∈ s.users, u.id ≠ uid → u.tg_user_id ≠ some tg) :
    setUserTg s uid tg = some { s with users := s.users.map (fun u =>
      if u.id = uid then { u with tg_user_id := some tg } else u) } := by
  unfold setUserTg
  rw [if_neg]
  intro hx
  obtain ⟨w, hw, hdec⟩ := List.any_eq_true.mp hx
  simp only [decide_eq_true_eq] at hdec
  exact h w hw hdec.1 hdec.2

theorem setUserTg_none {s : Store} {uid tg : Int} (u : UserRow)
    (hu : u ∈ s.users) (hne : u.id ≠ uid) (htg : u.tg_user_id = some tg) :
    setUserTg s uid tg = none := by
  unfold setUserTg
  rw [if_pos (List.any_eq_true.mpr ⟨u, hu, by simp [hne, htg]⟩)]

theorem setUserBale_some {s : Store} {uid bale : Int}
    (h : ∀ u ∈ s.users, u.id ≠ uid → u.bale_user_id ≠ some bale) :
    setUserBale s uid bale = some { s with users := s.users.map (fun u =>
      if u.id = uid then { u with bale_user_id := some bale } else u) } := by
  unfold setUserBale
  rw [if_neg]
  intro hx
  obtain ⟨w, hw, hdec⟩ := List.any_eq_true.mp hx
  simp only [decide_eq_true_eq] at hdec
  exact h w hw hdec.1 hdec.2

theorem merge_eq_case4 (s : Store) (now : Nat) (tg bale a b : Int)
    (ha : findTgOwner s tg = some a) (hb : findBaleOwner s bale = some b)
    (ha0 : a ≠ 0) (hb0 : b ≠ 0) (hab : a ≠ b) :
    merge_user_accounts s now tg bale =
      (match setUserTg (reparent s a b) b tg with
       | none => none
       | some s2 => some (b, delUser s2 a)) := by
  simp only [merge_user_accounts]
  rw [ha, hb]
  simp [truthyId, ha0, hb0, hab]

theorem merge_eq_case2 (s : Store) (now : Nat) (tg bale a : Int)
    (ha : findTgOwner s tg = some a) (hb : findBaleOwner s bale = none)
    (ha0 : a ≠ 0) :
    merge_user_accounts s now tg bale =
      (setUserBale s a bale).map (fun s2 => (a, s2)) := by
  simp only [merge_user_accounts]
  rw [ha, hb]
  simp [truthyId, ha0]

theorem merge_eq_case3 (s : Store) (now : Nat) (tg bale b : Int)
    (hb : findBaleOwner s bale = some b) (hb0 : b ≠ 0)
    (hcond : findTgOwner s tg = none ∨ findTgOwner s tg = some b) :
    merge_user_accounts s now tg bale =
      (setUserTg s b tg).map (fun s2 => (b, s2)) := by
  simp only [merge_user_accounts]
  rcases hcond with h | h <;> rw [h, hb] <;> simp [truthyId, hb0]

theorem merge_eq_fallback (s : Store) (now : Nat) (tg bale : Int)
    (ha : findTgOwner s tg = none) (hb : findBaleOwner s bale = none) :
    merge_user_accounts s now tg bale =
      some (get_or_create_user_by_tg s tg now) := by
  simp only [merge_user_accounts]
  rw [ha, hb]
  simp [truthyId]

/-- When both identities already resolve to the same owner, the merge is an
exact no-op: it returns that owner and the unchanged store. -/
theorem merge_same_owner_noop (s : Store) (now : Nat) (tg bale o : Int)
    (hwf : WF s) (htg : findTgOwner s tg = some o)
    (hbale : findBaleOwner s bale = some o) :
    merge_user_accounts s now tg bale = some (o, s) := by
  obtain ⟨u, hu, _, huid, hutg⟩ := findTgOwner_some htg
  have ho : o ≠ 0 := by
    have := hwf.1 u hu
    omega
  rw [merge_eq_case3 s now tg bale o hbale ho (Or.inr htg)]
  have hset : setUserTg s o tg = some { s with users := s.users.map (fun w =>
      if w.id = o then { w with tg_user_id := some tg } else w) } :=
    setUserTg_some (fun w hw hwo hwtg => by
      have := hwf.2.2.1 w hw u hu (by rw [hwtg]; exact (by simp))
        (by rw [hwtg, hutg])
      exact hwo (this ▸ huid))
  rw [hset]
  have hmap : s.users.map (fun w =>
      if w.id = o then { w with tg_user_id := some tg } else w) = s.users := by
    apply map_id_of_mem
    intro w hw
    by_cases hid : w.id = o
    · have hwu : w = u := hwf.2.1 w hw u hu (by rw [hid, huid])
      rw [if_pos hid, hwu, setTg_self u tg hutg]
    · rw [if_neg hid]
  rw [hmap]
  rfl

theorem findTgOwner_map_invariant (s : Store) (f : UserRow → UserRow)
    (tg : Int) (hid : ∀ w, (f w).id = w.id)
    (htg : ∀ w, (f w).tg_user_id = w.tg_user_id) :
    findTgOwner { s with users := s.users.map f } tg = findTgOwner s tg := by
  unfold findTgOwner
  show ((s.users.map f).find? _).map _ = _
  rw [find?_map_pred f _ (fun w => decide (w.tg_user_id = some tg)) s.users
    (fun x _ => by rw [htg x])]
  cases s.users.find? (fun w => decide (w.tg_user_id = some tg)) with
  | none => rfl
  | some u => simp [hid u]

theorem findBaleOwner_map_invariant (s : Store) (f : UserRow → UserRow)
    (bale : Int) (hid : ∀ w, (f w).id = w.id)
    (hbale : ∀ w, (f w).bale_user_id = w.bale_user_id) :
    findBaleOwner { s with users := s.users.map f } bale =
      findBaleOwner s bale := by
  unfold findBaleOwner
  show ((s.users.map f).find? _).map _ = _
  rw [find?_map_pred f _ (fun w => decide (w.bale_user_id = some bale)) s.users
    (fun x _ => by rw [hbale x])]
  cases s.users.find? (fun w => decide (w.bale_user_id = some bale)) with
  | none => rfl
  | some u => simp [hid u]

theorem findBaleOwner_after_set (s : Store) (a bale : Int) (u : UserRow)
    (hu : u ∈ s.users) (huid : u.id = a)
    (hids : ∀ w ∈ s.users, ∀ v ∈ s.users, w.id = v.id → w = v)
    (hnob : ∀ w ∈ s.users, w.bale_user_id ≠ some bale) :
    findBaleOwner { s with users := s.users.map (fun w =>
      if w.id = a then { w with bale_user_id := some bale } else w) } bale =
      some a := by
  unfold findBaleOwner
  show ((s.users.map _).find? _).map _ = _
  rw [find?_map_pred _ _ (fun w => decide (w.id = a)) s.users ?_]
  · rw [find?_eq_of_unique (fun w => decide (w.id = a)) hu (by simp [huid])
      (fun x hx hpx => hids x hx u hu (by
        have : x.id = a := by simpa using hpx
        rw [this, huid]))]
    simp [huid]
  · intro x hx
    by_cases hxa : x.id = a
    · simp [hxa]
    · simp [hxa, hnob x hx]

theorem findTgOwner_after_set (s : Store) (b tg : Int) (v : UserRow)
    (hv : v ∈ s.users) (hvid : v.id = b)
    (hids : ∀ w ∈ s.users, ∀ x ∈ s.users, w.id = x.id → w = x)
    (hnot : ∀ w ∈ s.users, w.tg_user_id ≠ some tg) :
    findTgOwner { s with users := s.users.map (fun w =>
      if w.id = b then { w with tg_user_id := some tg } else w) } tg =
      some b := by
  unfold findTgOwner
  show ((s.users.map _).find? _).map _ = _
  rw [find?_map_pred _ _ (fun w => decide (w.id = b)) s.users ?_]
  · rw [find?_eq_of_unique (fun w => decide (w.id = b)) hv (by simp [hvid])
      (fun x hx hpx => hids x hx v hv (by
        have : x.id = b := by simpa using hpx
        rw [this, hvid]))]
    simp [hvid]
  · intro x hx
    by_cases hxb : x.id = b
    · simp [hxb]
    · simp [hxb, hnot x hx]

theorem findTgOwner_after_append (s : Store) (tg : Int) (now : Nat)
    (hf : findTgOwner s tg = none) :
    findTgOwner { s with users := s.users ++
      [⟨nextUserId s, some tg, none, none, none, now⟩] } tg =
      some (nextUserId s) := by
  have h1 : s.users.find? (fun u => decide (u.tg_user_id = some tg)) = none :=
    Option.map_eq_none.mp hf
  unfold findTgOwner
  show ((s.users ++ [_]).find? _).map _ = _
  rw [List.find?_append, h1]
  simp [List.find?]

theorem findBaleOwner_after_tg_append (s : Store) (tg bale : Int) (now : Nat)
    (hb : findBaleOwner s bale = none) :
    findBaleOwner { s with users := s.users ++
      [⟨nextUserId s, some tg, none, none, none, now⟩] } bale = none := by
  have h1 : s.users.find? (fun u => decide (u.bale_user_id = some bale)) = none :=
    Option.map_eq_none.mp hb
  unfold findBaleOwner
  show ((s.users ++ [_]).find? _).map _ = _
  rw [List.find?_append, h1]
  simp [List.find?]

/-- Claim C7: merge_user_accounts is idempotent.  On a well-formed store
(the uniqueness and positivity guarantees of the real database), if a first
call returns owner o, a second call with the same identity pair returns the
same o and creates no additional users rows; and when both identities
already resolve to the same owner, the call is an exact no-op returning that
owner with the store unchanged. -/
theorem claim_C7_merge_idempotent (s : Store) (now now2 : Nat)
    (tg bale o : Int) (s1 : Store) (hwf : WF s)
    (h : merge_user_accounts s now tg bale = some (o, s1)) :
    (∃ s2, merge_user_accounts s1 now2 tg bale = some (o, s2) ∧
      s2.users.length = s1.users.length) ∧
    (findTgOwner s tg = some o → findBaleOwner s bale = some o →
      merge_user_accounts s now tg bale = some (o, s)) := by
  refine ⟨?_, fun h1 h2 => merge_same_owner_noop s now tg bale o hwf h1 h2⟩
  cases hf : findTgOwner s tg with
  | some a =>
    obtain ⟨u, hu, hufind, huid, hutg⟩ := findTgOwner_some hf
    have ha0 : a ≠ 0 := by have := hwf.1 u hu; omega
    cases hb : findBaleOwner s bale with
    | some b =>
      obtain ⟨v, hv, hvfind, hvid, hvbale⟩ := findBaleOwner_some hb
      have hb0 : b ≠ 0 := by have := hwf.1 v hv; omega
      by_cases hab : a = b
      · subst hab
        have hnoop := merge_same_owner_noop s now tg bale a hwf hf hb
        rw [hnoop] at h
        have hpair := Option.some.inj h
        have hoa : a = o := congrArg Prod.fst hpair
        have hss : s = s1 := congrArg Prod.snd hpair
        subst hoa
        subst hss
        exact ⟨s, merge_same_owner_noop s now2 tg bale a hwf hf hb, rfl⟩
      · rw [merge_eq_case4 s now tg bale a b hf hb ha0 hb0 hab] at h
        have hnone : setUserTg (reparent s a b) b tg = none := by
          refine setUserTg_none u ?_ ?_ hutg
          · exact hu
          · rw [huid]; exact hab
        rw [hnone] at h
        cases h
    | none =>
      rw [merge_eq_case2 s now tg bale a hf hb ha0] at h
      have hnob := findBaleOwner_none hb
      rw [setUserBale_some (fun w hw _ => hnob w hw)] at h
      have hpair := Option.some.inj h
      have hoa : a = o := congrArg Prod.fst hpair
      have hs1 : ({ s with users := s.users.map (fun w =>
          if w.id = a then { w with bale_user_id := some bale } else w) } :
          Store) = s1 := congrArg Prod.snd hpair
      subst hoa
      have htg1 : findTgOwner s1 tg = some a := by
        rw [← hs1, findTgOwner_map_invariant s
          (fun w => if w.id = a then { w with bale_user_id := some bale } else w)
          tg (fun w => by by_cases hw : w.id = a <;> simp [hw])
          (fun w => by by_cases hw : w.id = a <;> simp [hw])]
        exact hf
      have hb1 : findBaleOwner s1 bale = some a := by
        rw [← hs1]
        exact findBaleOwner_after_set s a bale u hu huid hwf.2.1 hnob
      rw [merge_eq_case3 s1 now2 tg bale a hb1 ha0 (Or.inr htg1)]
      have hchk : ∀ w ∈ s1.users, w.id ≠ a → w.tg_user_id ≠ some tg := by
        intro w' hw' hne
        rw [← hs1] at hw'
        obtain ⟨w, hwmem, rfl⟩ := List.mem_map.mp hw'
        by_cases hid : w.id = a
        · exact absurd (by simp [hid]) hne
        · rw [if_neg hid]
          intro htgw
          have heq := hwf.2.2.1 w hwmem u hu (by rw [htgw]; simp)
            (by rw [htgw, hutg])
          exact hid (by rw [heq, huid])
      rw [setUserTg_some hchk]
      exact ⟨_, rfl, List.length_map _ _⟩
  | none =>
    cases hb : findBaleOwner s bale with
    | some b =>
      obtain ⟨v, hv, hvfind, hvid, hvbale⟩ := findBaleOwner_some hb
      have hb0 : b ≠ 0 := by have := hwf.1 v hv; omega
      have hnot := findTgOwner_none hf
      rw [merge_eq_case3 s now tg bale b hb hb0 (Or.inl hf)] at h
      rw [setUserTg_some (fun w hw _ => hnot w hw)] at h
      have hpair := Option.some.inj h
      have hob : b = o := congrArg Prod.fst hpair
      have hs1 : ({ s with users := s.users.map (fun w =>
          if w.id = b then { w with tg_user_id := some tg } else w) } :
          Store) = s1 := congrArg Prod.snd hpair
      subst hob
      have htg1 : findTgOwner s1 tg = some b := by
        rw [← hs1]
        exact findTgOwner_after_set s b tg v hv hvid hwf.2.1 hnot
      have hb1 : findBaleOwner s1 bale = some b := by
        rw [← hs1, findBaleOwner_map_invariant s
          (fun w => if w.id = b then { w with tg_user_id := some tg } else w)
          bale (fun w => by by_cases hw : w.id = b <;> simp [hw])
          (fun w => by by_cases hw : w.id = b <;> simp [hw])]
        exact hb
      rw [merge_eq_case3 s1 now2 tg bale b hb1 hb0 (Or.inr htg1)]
      have hchk : ∀ w ∈ s1.users, w.id ≠ b → w.tg_user_id ≠ some tg := by
        intro w' hw' hne
        rw [← hs1] at hw'
        obtain ⟨w, hwmem, rfl⟩ := List.mem_map.mp hw'
        by_cases hid : w.id = b
        · exact absurd (by simp [hid]) hne
        · rw [if_neg hid]
          exact hnot w hwmem
      rw [setUserTg_some hchk]
      exact ⟨_, rfl, List.length_map _ _⟩
    | none =>
      rw [merge_eq_fallback s now tg bale hf hb] at h
      have h1 : s.users.find? (fun u => decide (u.tg_user_id = some tg)) =
          none := Option.map_eq_none.mp hf
      unfold get_or_create_user_by_tg at h
      rw [h1] at h
      have hpair := Option.some.inj h
      have hno : nextUserId s = o := congrArg Prod.fst hpair
      have hs1 : ({ s with users := s.users ++
          [⟨nextUserId s, some tg, none, none, none, now⟩] } : Store) = s1 :=
        congrArg Prod.snd hpair
      have hn0 : o ≠ 0 := by
        rw [← hno]
        have := nextUserId_pos s
        omega
      have htg1 : findTgOwner s1 tg = some o := by
        rw [← hs1, findTgOwner_after_append s tg now hf, hno]
      have hb1 : findBaleOwner s1 bale = none := by
        rw [← hs1]
        exact findBaleOwner_after_tg_append s tg bale now hb
      rw [merge_eq_case2 s1 now2 tg bale o htg1 hb1 hn0]
      have hnob := findBaleOwner_none hb
      have hchk : ∀ w ∈ s1.users, w.id ≠ o → w.bale_user_id ≠ some bale := by
        intro w' hw' _
        rw [← hs1] at hw'
        rcases List.mem_append.mp hw' with hl | hr
        · exact hnob w' hl
        · have hw'' : w' = ⟨nextUserId s, some tg, none, none, none, now⟩ := by
            simpa using hr
          rw [hw'']
          simp
      rw [setUserBale_some hchk]
      exact ⟨_, rfl, List.length_map _ _⟩

/-- Witness for claim C7 at a concrete input: merging (5, 7) on c7store is a
no-op returning owner 1, and a second call returns the same owner with the
same number of users rows. -/
theorem claim_C7_witness :
    (∃ s2, merge_user_accounts c7store 0 5 7 = some (1, s2) ∧
      s2.users.length = c7store.users.length) ∧
    (findTgOwner c7store 5 = some 1 → findBaleOwner c7store 7 = some 1 →
      merge_user_accounts c7store 0 5 7 = some (1, c7store)) :=
  claim_C7_merge_idempotent c7store 0 0 5 7 1 c7store
    (by constructor
        · decide
        · constructor
          · decide
          · constructor
            · decide
            · decide)
    (by decide)
